import Mathlib

/-!
# Surface-Minder: snapshot ingestion and baseline-delta engine

A shallow embedding of the core of the Surface-Minder repository
(`parser/tenant_parser.py`, `create_baseline.py`, the report ordering of
`main.py`), together with theorems settling the frozen claims about it.

Python dictionaries are modelled as association lists in insertion order
(Python dicts preserve insertion order; an assignment to an existing key
overwrites in place).  Values that Python may hold as `None` are modelled
as `Option String`.  SQLite tables are modelled as lists of rows in rowid
order; `ORDER BY id DESC LIMIT 1` becomes the row of maximal id.
-/

namespace SurfaceMinder

/-- A `{'state': ..., 'service': ...}` value in a snapshot.  `state` can be
Python `None` (state element present without a `state` attribute);
`service` is always a string (the parser defaults it to `''`). -/
structure Obs where
  state : Option String
  service : String
deriving DecidableEq

/-- A `(port, proto)` dictionary key.  `proto` is `p.get('protocol')`,
which is `None` when the attribute is absent. -/
abbrev PortKey := Int × Option String

/-- The per-host dictionary `(port, proto) -> {'state','service'}`. -/
abbrev HostMap := List (PortKey × Obs)

/-- The snapshot dictionary `ip -> HostMap` (`ObservationSnapshot`). -/
abbrev Snapshot := List (String × HostMap)

/-- One host's entry in the delta report: the `added`, `removed` and
`changed` lists built by `_compute_delta`. -/
structure HostEntry where
  added : List (PortKey × Obs)
  removed : List (PortKey × Obs)
  changed : List (PortKey × Obs × Obs)
deriving DecidableEq

/-- The delta report dictionary `ip -> HostEntry`. -/
abbrev Report := List (String × HostEntry)

/-- Python dictionary lookup `d[k]` / `d.get(k)` on an association list:
the value at the first matching key. -/
def alookup {α β : Type} [DecidableEq α] (k : α) : List (α × β) → Option β
  | [] => none
  | (k', v) :: rest => if k' = k then some v else alookup k rest

/-- Python `baseline.get(ip, {})`: the host map of `ip`, or the empty map. -/
def snapGet (s : Snapshot) (ip : String) : HostMap :=
  (alookup ip s).getD []

/-- Keys of an association list are pairwise distinct (true of every list
that models a Python dict). -/
def nodupKeys {α β : Type} [DecidableEq α] (l : List (α × β)) : Prop :=
  (l.map Prod.fst).Nodup

instance {α β : Type} [DecidableEq α] (l : List (α × β)) :
    Decidable (nodupKeys l) := by
  unfold nodupKeys; infer_instance

/-- Python dict assignment `m[k] = v`: overwrite the first occurrence of
`k` in place, or append `(k, v)` at the end. -/
def mapInsert (k : PortKey) (v : Obs) : HostMap → HostMap
  | [] => [(k, v)]
  | (k', v') :: rest =>
      if k' = k then (k, v) :: rest else (k', v') :: mapInsert k v rest

/-- Python `snap.setdefault(ip, {})[k] = v`: assign into the host map of `ip`,
creating the host entry at the end of the snapshot if absent. -/
def snapInsert (ip : String) (k : PortKey) (v : Obs) : Snapshot → Snapshot
  | [] => [(ip, [(k, v)])]
  | (ip', m) :: rest =>
      if ip' = ip then (ip, mapInsert k v m) :: rest
      else (ip', m) :: snapInsert ip k v rest

/-- One `(ip, port, proto, state, service)` row as selected from the
`ports` or `baseline_ports` table. -/
structure ObsRow where
  ip : String
  port : Int
  proto : Option String
  state : Option String
  service : String
deriving DecidableEq

/-- One iteration of the snapshot-building loop:
`snap.setdefault(ip, {})[(port, proto)] = {'state': state, 'service': service}`. -/
def snapStep (cur : Snapshot) (r : ObsRow) : Snapshot :=
  snapInsert r.ip (r.port, r.proto) ⟨r.state, r.service⟩ cur

/-- The snapshot-building loop over a list of rows, used for both the
baseline map and the current map. -/
def buildSnap (rows : List ObsRow) : Snapshot :=
  rows.foldl snapStep []

/-- The loop body of `_compute_delta` for one host: classify the keys of
the current and baseline host maps into added / changed / removed. -/
def deltaHost (bm cm : HostMap) : HostEntry where
  added := cm.filter (fun e => (alookup e.1 bm).isNone)
  removed := bm.filter (fun e => (alookup e.1 cm).isNone)
  changed := cm.filterMap (fun e =>
    match alookup e.1 bm with
    | some w => if e.2 ≠ w then some (e.1, w, e.2) else none
    | none => none)

/-- One iteration of the `for ip in ips` loop of `_compute_delta`: the
host's report entry, or `none` when the host has nothing added, removed
or changed (`if added or removed or changed`). -/
def deltaEntry (baseline current : Snapshot) (ip : String) :
    Option (String × HostEntry) :=
  if (deltaHost (snapGet baseline ip) (snapGet current ip)).added = [] ∧
     (deltaHost (snapGet baseline ip) (snapGet current ip)).removed = [] ∧
     (deltaHost (snapGet baseline ip) (snapGet current ip)).changed = [] then none
  else some (ip, deltaHost (snapGet baseline ip) (snapGet current ip))

/-- The function `_compute_delta(baseline, current)`.  `ips` is the iteration order of
the Python set `set(list(baseline.keys()) + list(current.keys()))`, which
is unspecified; the function is parametrised by it.  A host is put into
the report only if it has at least one added/removed/changed entry. -/
def computeDelta (ips : List String) (baseline current : Snapshot) : Report :=
  ips.filterMap (deltaEntry baseline current)

/-- One canonical iteration order of the host union
`set(list(baseline.keys()) + list(current.keys()))`: first occurrences in
concatenation order. -/
def hostUnion (baseline current : Snapshot) : List String :=
  (baseline.map Prod.fst ++ current.map Prod.fst).dedup

/-- The report entry of a host, with the empty entry for an omitted
host (matching the convention that omission means "no drift"). -/
def reportEntry (rep : Report) (ip : String) : HostEntry :=
  (alookup ip rep).getD ⟨[], [], []⟩

/-- Lookup of one `(host, (port, proto))` key in a snapshot. -/
def snapAlookup (s : Snapshot) (ip : String) (k : PortKey) : Option Obs :=
  alookup k (snapGet s ip)

/-- The comparison `key=lambda x: x[0]` used by
`sorted(report.items(), key=lambda x: x[0])` in `_format_report`. -/
def keyLE (a b : String × HostEntry) : Prop := a.1 ≤ b.1

instance : DecidableRel keyLE :=
  fun a b => inferInstanceAs (Decidable (a.1 ≤ b.1))

instance : IsTotal (String × HostEntry) keyLE :=
  ⟨fun a b => le_total a.1 b.1⟩

instance : IsTrans (String × HostEntry) keyLE :=
  ⟨fun _ _ _ h1 h2 => le_trans h1 h2⟩

/-- Strict version of `keyLE`, for uniqueness of the sorted order. -/
def keyLT (a b : String × HostEntry) : Prop := a.1 < b.1

instance : IsAntisymm (String × HostEntry) keyLT :=
  ⟨fun _ _ h1 h2 => absurd h2 (lt_asymm h1)⟩

/-- The call `sorted(report.items(), key=lambda x: x[0])` in `_format_report`:
the host order in which the report is rendered.  Python `sorted` is a
stable sort; `insertionSort` is the stable sort modelling it. -/
def sortReport (rep : Report) : Report :=
  List.insertionSort keyLE rep

/-- One step of the spec-side "last assignment wins" accumulator. -/
def lwwStep (ip : String) (k : PortKey) (acc : Option Obs) (r : ObsRow) :
    Option Obs :=
  if r.ip = ip ∧ (r.port, r.proto) = k then some ⟨r.state, r.service⟩ else acc

/-- Modelled from the spec's merge rule (§4.4): the observation held for a
`(host, port, protocol)` key is the one of the *last* row assigned to that
key — "the later-processed kind's entry wins"; rows with any other key do
not interfere. -/
def lastWriteWins (rows : List ObsRow) (ip : String) (k : PortKey) :
    Option Obs :=
  rows.foldl (lwwStep ip k) none

/-! ## Scan result parser (`parse_nmap_xml_path`) -/

/-- One `<port>` element: the `portid` and `protocol` attributes (absent
attribute = `none`), the optional `<state>` child with its optional
`state` attribute, and the optional `<service>` child with its optional
`name` attribute. -/
structure XmlPort where
  portid : Option String
  protocol : Option String
  state_el : Option (Option String)
  service_el : Option (Option String)
deriving DecidableEq

/-- One `<host>` element: its `<address>` children (each with an optional
`addr` attribute) and its optional `<ports>` container. -/
structure XmlHost where
  addresses : List (Option String)
  ports : Option (List XmlPort)
deriving DecidableEq

/-- One record `{'ip','port','proto','state','service'}` produced by the
parser.  `proto` and `state` can be Python `None`; `service` cannot. -/
structure PortRec where
  ip : String
  port : Int
  proto : Option String
  state : Option String
  service : String
deriving DecidableEq

/-- Value of a decimal digit character, else `none`. -/
def digitVal (c : Char) : Option Nat :=
  if '0' ≤ c ∧ c ≤ '9' then some (c.toNat - '0'.toNat) else none

/-- Accumulating decimal evaluation; fails on any non-digit. -/
def digitsValAux : List Char → Nat → Option Nat
  | [], acc => some acc
  | c :: rest, acc =>
    match digitVal c with
    | some d => digitsValAux rest (acc * 10 + d)
    | none => none

/-- Value of a non-empty all-digit character list. -/
def digitsVal : List Char → Option Nat
  | [] => none
  | cs => digitsValAux cs 0

/-- Python `int(attr)` on an optional attribute string: an optional sign
followed by one or more decimal digits (Python also strips surrounding
whitespace and allows underscore separators; such inputs do not occur in
nmap attributes and are not modelled).  `int(None)` raises `TypeError`,
hence `none ↦ none`; any failure makes the caller skip the port entry. -/
def pyInt : Option String → Option Int
  | none => none
  | some s =>
    match s.toList with
    | '-' :: rest => (digitsVal rest).map (fun n => -(n : Int))
    | '+' :: rest => (digitsVal rest).map (fun n => (n : Int))
    | cs => (digitsVal cs).map (fun n => (n : Int))

/-- The address-resolution loop: the first `<address>` whose `addr`
attribute is present and truthy (non-empty). -/
def resolveAddr : List (Option String) → Option String
  | [] => none
  | some s :: rest => if s ≠ "" then some s else resolveAddr rest
  | none :: rest => resolveAddr rest

/-- Line `state = state_el.get('state') if state_el is not None else ''`:
an absent `<state>` element defaults to `''`, but a present element
without a `state` attribute yields `None`. -/
def stateOf (p : XmlPort) : Option String :=
  match p.state_el with
  | some attr => attr
  | none => some ""

/-- Line `service = service_el.get('name') if service_el is not None and
'name' in service_el.attrib else ''`: missing element or missing `name`
attribute both default to `''`. -/
def serviceOf (p : XmlPort) : String :=
  match p.service_el with
  | some (some nm) => nm
  | _ => ""

/-- The body of the per-port loop: skip the port if `int(portid)`
raises, otherwise build the record.  `proto` is carried through
unchanged (`p.get('protocol')`, possibly `None`). -/
def parseXmlPort (addr : String) (p : XmlPort) : Option PortRec :=
  match pyInt p.portid with
  | none => none
  | some portid => some ⟨addr, portid, p.protocol, stateOf p, serviceOf p⟩

/-- The per-host part of `parse_nmap_xml_path`: skip the host when no
address resolves or when it has no `<ports>` container. -/
def parseHost (h : XmlHost) : List PortRec :=
  match resolveAddr h.addresses with
  | none => []
  | some addr =>
    match h.ports with
    | none => []
    | some ps => ps.filterMap (parseXmlPort addr)

/-- Function `parse_nmap_xml_path(path)`: `none` models a document whose parse
raised (corrupt input) — the exception is caught, a message is printed
and `[]` is returned; otherwise the records of all hosts in document
order. -/
def parse_nmap_xml : Option (List XmlHost) → List PortRec
  | none => []
  | some hosts => hosts.flatMap parseHost

/-! ## Snapshot store (SQLite tables and `ingest_all_scans`) -/

/-- A row of `scan_files` (id autoincrement, name unique). -/
structure ScanRow where
  id : Nat
  scan_file : String
  scan_type : String
  created_at : String
deriving DecidableEq

/-- A row of `ports`. -/
structure PortRow where
  scan_file : String
  ip : String
  port : Int
  proto : Option String
  state : Option String
  service : String
deriving DecidableEq

/-- A row of `baseline_ports`. -/
structure BaselineRow where
  tenant : String
  ip : String
  port : Int
  proto : Option String
  state : Option String
  service : String
  set_at : String
deriving DecidableEq

/-- The persisted store: the three tables in rowid order, plus the next
autoincrement id for `scan_files`. -/
structure DB where
  nextScanId : Nat
  scanFiles : List ScanRow
  ports : List PortRow
  baselinePorts : List BaselineRow
deriving DecidableEq

/-- Whether `pat` begins `cs`. -/
def leadsWith : List Char → List Char → Bool
  | [], _ => true
  | _ :: _, [] => false
  | p :: ps, c :: cs => p = c && leadsWith ps cs

/-- Whether `pat` occurs inside `cs` (Python `pat in s`). -/
def hasSubList (pat : List Char) : List Char → Bool
  | [] => leadsWith pat []
  | c :: cs => leadsWith pat (c :: cs) || hasSubList pat cs

/-- Python substring test `pat in s`. -/
def containsSub (s pat : String) : Bool :=
  hasSubList pat.toList s.toList

/-- Scan-type detection from filename: `'-tcp-' in fname`, elif
`'-udp-' in fname`, else `'unknown'`. -/
def scanTypeOf (fname : String) : String :=
  if containsSub fname "-tcp-" then "tcp"
  else if containsSub fname "-udp-" then "udp"
  else "unknown"

/-- Whether `SELECT 1 FROM scan_files WHERE scan_file=?` returned a row. -/
def hasScanFile (db : DB) (fname : String) : Bool :=
  db.scanFiles.any (fun r => r.scan_file == fname)

/-- One iteration of the ingest loop for the artifact `f.1` whose parsed
document is `f.2` (`none` = corrupt).  If the name is already in
`scan_files` the iteration is `continue` (no error to the caller);
otherwise a `scan_files` row and the parsed port rows are inserted. -/
def ingestFile (now : String) (db : DB)
    (f : String × Option (List XmlHost)) : DB :=
  if hasScanFile db f.1 then db
  else
    { nextScanId := db.nextScanId + 1
      scanFiles := db.scanFiles ++ [⟨db.nextScanId, f.1, scanTypeOf f.1, now⟩]
      ports := db.ports ++ (parse_nmap_xml f.2).map
        (fun r => ⟨f.1, r.ip, r.port, r.proto, r.state, r.service⟩)
      baselinePorts := db.baselinePorts }

/-- Function `ingest_all_scans`: process the artifact files in order (the real
code lists `*.xml` in the scans directory, sorted; the directory
contents are an external input, so the file list is a parameter). -/
def ingest_all_scans (now : String)
    (files : List (String × Option (List XmlHost))) (db : DB) : DB :=
  files.foldl (ingestFile now) db

/-! ## Baseline store (`set_baseline`, `set_baseline_combined`) -/

/-- Query `SELECT ... ORDER BY id DESC LIMIT 1`: the row of maximal id. -/
def maxById (rows : List ScanRow) : Option ScanRow :=
  rows.foldl (fun acc r =>
    match acc with
    | none => some r
    | some m => if m.id < r.id then some r else some m) none

/-- Python truthiness of an optional string (`if not scan_file:`). -/
def truthy : Option String → Bool
  | none => false
  | some s => s ≠ ""

/-- Build a `baseline_ports` row from an `(ip, port, proto, state,
service)` tuple for a tenant at a timestamp. -/
def toBaselineRow (tenant set_at : String) (r : ObsRow) : BaselineRow :=
  ⟨tenant, r.ip, r.port, r.proto, r.state, r.service, set_at⟩

/-- Function `set_baseline(tenant, scan_file)` in `parser/tenant_parser.py`:
resolve the scan file (falling back to the latest ingested scan; if none
exists, print and return leaving the store untouched), then delete the
tenant's baseline rows and insert the rows of the chosen scan with a
fresh `set_at`. -/
def set_baseline (tenant : String) (scan_file : Option String)
    (set_at : String) (db : DB) : DB :=
  match if truthy scan_file then scan_file
        else (maxById db.scanFiles).map (fun r => r.scan_file) with
  | none => db
  | some sf =>
    { db with baselinePorts :=
        (db.baselinePorts.filter (fun r => ¬ r.tenant = tenant)) ++
        ((db.ports.filter (fun r => r.scan_file = sf)).map
          (fun r => toBaselineRow tenant set_at ⟨r.ip, r.port, r.proto, r.state, r.service⟩)) }

/-- Function `set_baseline_combined(db_path, tenant, port_rows)` in
`create_baseline.py`, restricted to the only table it touches: delete
the tenant's baseline rows, then insert the provided `(ip, port, proto,
state, service)` tuples with a fresh `set_at` timestamp, in one
transaction.  An empty `port_rows` is valid and leaves the tenant's
baseline empty. -/
def set_baseline_combined (tenant set_at : String) (port_rows : List ObsRow)
    (table : List BaselineRow) : List BaselineRow :=
  (table.filter (fun r => ¬ r.tenant = tenant)) ++
    port_rows.map (toBaselineRow tenant set_at)

/-- The tenant's baseline rows (`SELECT ... WHERE tenant=?`). -/
def baselineFor (tenant : String) (table : List BaselineRow) :
    List BaselineRow :=
  table.filter (fun r => r.tenant = tenant)

/-! ## Comparison pipeline (`compare_baseline_to_latest*`) -/

/-- Query `SELECT scan_file FROM scan_files WHERE scan_type=? ORDER BY id DESC
LIMIT 1`. -/
def latestOfType (db : DB) (typ : String) : Option String :=
  (maxById (db.scanFiles.filter (fun r => r.scan_type = typ))).map
    (fun r => r.scan_file)

/-- The `(ip, port, proto, state, service)` tuples of one scan file
(empty when there is no such scan). -/
def portsOf (db : DB) : Option String → List ObsRow
  | none => []
  | some sf => (db.ports.filter (fun r => r.scan_file = sf)).map
      (fun r => ⟨r.ip, r.port, r.proto, r.state, r.service⟩)

/-- The `(ip, port, proto, state, service)` tuples of the tenant's
baseline rows. -/
def baselineObsRows (db : DB) (tenant : String) : List ObsRow :=
  (db.baselinePorts.filter (fun r => r.tenant = tenant)).map
    (fun r => ⟨r.ip, r.port, r.proto, r.state, r.service⟩)

/-- Function `compare_baseline_to_latest_combined(tenant)`: baseline map from the
tenant's baseline rows; current map from the rows of the latest TCP scan
followed by the rows of the latest UDP scan (each absent kind
contributing nothing); delta of the two.  The host-union set is iterated
in its canonical first-occurrence order here; the report's content is
iteration-order independent. -/
def compare_baseline_to_latest_combined (tenant : String) (db : DB) :
    Option String × Option String × Report :=
  (latestOfType db "tcp", latestOfType db "udp",
    computeDelta
      (hostUnion (buildSnap (baselineObsRows db tenant))
        (buildSnap (portsOf db (latestOfType db "tcp") ++
                    portsOf db (latestOfType db "udp"))))
      (buildSnap (baselineObsRows db tenant))
      (buildSnap (portsOf db (latestOfType db "tcp") ++
                  portsOf db (latestOfType db "udp"))))

/-- Function `compare_baseline_to_latest(tenant)` (the legacy single-scan
comparison): `none` models the early return (`{}`) when no scan exists
at all. -/
def compare_baseline_to_latest (tenant : String) (db : DB) :
    Option (String × Report) :=
  match (maxById db.scanFiles).map (fun r => r.scan_file) with
  | none => none
  | some latest =>
    some (latest,
      computeDelta
        (hostUnion (buildSnap (baselineObsRows db tenant))
          (buildSnap (portsOf db (some latest))))
        (buildSnap (baselineObsRows db tenant))
        (buildSnap (portsOf db (some latest))))

/-! ## Concrete data shared by witnesses and counterexamples -/

/-- A host with one well-formed port element. -/
def demoXmlHost : XmlHost :=
  ⟨[some "h1"], some [⟨some "80", some "tcp", some (some "open"),
    some (some "http")⟩]⟩

/-- A host whose port element has no `protocol` attribute and a
`<state>` child without a `state` attribute. -/
def badAttrXmlHost : XmlHost :=
  ⟨[some "h1"], some [⟨some "80", none, some none, none⟩]⟩

/-- A store with no rows at all (sqlite autoincrement starts at 1). -/
def emptyDB : DB := ⟨1, [], [], []⟩

/-- A store with a baseline entry for tenant `acme` but no scans. -/
def dbNoScans : DB :=
  ⟨1, [], [], [⟨"acme", "h1", 80, some "tcp", some "open", "http", "t0"⟩]⟩

/-- A store that already holds the artifact `a-tcp-1.xml`. -/
def dbWithScan : DB :=
  ⟨2, [⟨1, "a-tcp-1.xml", "tcp", "t0"⟩], [], []⟩

/-- A baseline table with two rows for tenant `acme` and one for
tenant `globex`. -/
def demoTable : List BaselineRow :=
  [⟨"acme", "h1", 80, some "tcp", some "open", "http", "t0"⟩,
   ⟨"acme", "h1", 22, some "tcp", some "open", "ssh", "t0"⟩,
   ⟨"globex", "h2", 443, some "tcp", some "open", "https", "t0"⟩]

/-- A store with one ingested scan, one port row and `demoTable` as
baseline table. -/
def dbPorts : DB :=
  ⟨2, [⟨1, "a-tcp-1.xml", "tcp", "t0"⟩],
   [⟨"a-tcp-1.xml", "h1", 80, some "tcp", some "open", "http"⟩],
   demoTable⟩

/-- A small concrete baseline snapshot. -/
def demoBase : Snapshot :=
  [("h1", [((80, some "tcp"), ⟨some "open", "http"⟩),
           ((22, some "tcp"), ⟨some "open", "ssh"⟩)])]

/-- A small concrete current snapshot: port 80 changed service case,
port 22 removed, port 443 added. -/
def demoCur : Snapshot :=
  [("h1", [((80, some "tcp"), ⟨some "open", "HTTP"⟩),
           ((443, some "tcp"), ⟨some "open", "https"⟩)])]

/-- Concrete snapshots whose host union has two hosts, both with drift. -/
def twoHostBase : Snapshot :=
  [("a", [((22, some "tcp"), ⟨some "open", "ssh"⟩)])]

/-- Second snapshot for the two-host example. -/
def twoHostCur : Snapshot :=
  [("b", [((80, some "tcp"), ⟨some "open", "http"⟩)])]

/-! ## Association-list lookup lemmas -/

theorem alookup_eq_some_of_mem {α β : Type} [DecidableEq α]
    {l : List (α × β)} {k : α} {v : β}
    (hnd : nodupKeys l) (hm : (k, v) ∈ l) : alookup k l = some v := by
  induction l with
  | nil => cases hm
  | cons e rest ih =>
    obtain ⟨k', v'⟩ := e
    rcases List.mem_cons.mp hm with h | h
    · cases h
      simp [alookup]
    · have hnd' : nodupKeys rest := (List.nodup_cons.mp hnd).2
      by_cases hk : k' = k
      · subst hk
        exfalso
        exact (List.nodup_cons.mp hnd).1 (List.mem_map.mpr ⟨(k', v), h, rfl⟩)
      · simpa [alookup, hk] using ih hnd' h

theorem mem_of_alookup_eq_some {α β : Type} [DecidableEq α]
    {l : List (α × β)} {k : α} {v : β}
    (h : alookup k l = some v) : (k, v) ∈ l := by
  induction l with
  | nil => simp [alookup] at h
  | cons e rest ih =>
    obtain ⟨k', v'⟩ := e
    by_cases hk : k' = k
    · subst hk
      simp [alookup] at h
      subst h
      exact List.mem_cons_self _ _
    · simp [alookup, hk] at h
      exact List.mem_cons_of_mem _ (ih h)

theorem alookup_eq_some_iff_mem {α β : Type} [DecidableEq α]
    {l : List (α × β)} {k : α} {v : β} (hnd : nodupKeys l) :
    alookup k l = some v ↔ (k, v) ∈ l :=
  ⟨mem_of_alookup_eq_some, alookup_eq_some_of_mem hnd⟩

theorem alookup_isSome_of_mem {α β : Type} [DecidableEq α]
    {l : List (α × β)} {k : α} {v : β}
    (hm : (k, v) ∈ l) : (alookup k l).isSome := by
  induction l with
  | nil => cases hm
  | cons e rest ih =>
    obtain ⟨k', v'⟩ := e
    by_cases hk : k' = k
    · simp [alookup, hk]
    · rcases List.mem_cons.mp hm with h | h
      · cases h; simp at hk
      · simpa [alookup, hk] using ih h

theorem alookup_eq_none_of_not_mem_keys {α β : Type} [DecidableEq α]
    {l : List (α × β)} {k : α}
    (h : k ∉ l.map Prod.fst) : alookup k l = none := by
  induction l with
  | nil => rfl
  | cons e rest ih =>
    obtain ⟨k', v'⟩ := e
    simp only [List.map_cons, List.mem_cons] at h
    push_neg at h
    simp [alookup, Ne.symm h.1, ih h.2]

/-! ## Delta-engine lemmas -/

theorem deltaEntry_eq_some {baseline current : Snapshot} {ip : String}
    {e : String × HostEntry} (h : deltaEntry baseline current ip = some e) :
    e.1 = ip ∧ e.2 = deltaHost (snapGet baseline ip) (snapGet current ip) := by
  unfold deltaEntry at h
  split at h
  · cases h
  · cases h; exact ⟨rfl, rfl⟩

theorem computeDelta_keys_sublist (ips : List String)
    (baseline current : Snapshot) :
    ((computeDelta ips baseline current).map Prod.fst).Sublist ips := by
  induction ips with
  | nil => simp [computeDelta]
  | cons x rest ih =>
    unfold computeDelta at ih ⊢
    rw [List.filterMap_cons]
    cases he : deltaEntry baseline current x with
    | none => exact ih.cons x
    | some e =>
      rw [List.map_cons, (deltaEntry_eq_some he).1]
      exact ih.cons₂ x

theorem alookup_computeDelta_of_not_mem {ips : List String}
    {baseline current : Snapshot} {ip : String} (h : ip ∉ ips) :
    alookup ip (computeDelta ips baseline current) = none := by
  refine alookup_eq_none_of_not_mem_keys (fun hm => h ?_)
  exact (computeDelta_keys_sublist ips baseline current).subset hm

theorem alookup_computeDelta {ips : List String}
    {baseline current : Snapshot} {ip : String}
    (hips : ips.Nodup) (hip : ip ∈ ips) :
    alookup ip (computeDelta ips baseline current) =
      (deltaEntry baseline current ip).map Prod.snd := by
  induction ips with
  | nil => cases hip
  | cons x rest ih =>
    have hnd := List.nodup_cons.mp hips
    unfold computeDelta
    rw [List.filterMap_cons]
    rcases List.mem_cons.mp hip with h | h
    · subst h
      cases he : deltaEntry baseline current ip with
      | none =>
        simpa [he] using alookup_computeDelta_of_not_mem hnd.1
      | some e =>
        obtain ⟨h1, _⟩ := deltaEntry_eq_some he
        obtain ⟨k, d⟩ := e
        simp only at h1
        subst h1
        simp [alookup]
    · have hx : x ≠ ip := fun hxe => hnd.1 (hxe ▸ h)
      cases he : deltaEntry baseline current x with
      | none => exact ih hnd.2 h
      | some e =>
        obtain ⟨h1, _⟩ := deltaEntry_eq_some he
        obtain ⟨k, d⟩ := e
        simp only at h1
        subst h1
        simpa [alookup, hx] using ih hnd.2 h

theorem reportEntry_computeDelta {ips : List String}
    {baseline current : Snapshot} {ip : String}
    (hips : ips.Nodup) (hip : ip ∈ ips) :
    reportEntry (computeDelta ips baseline current) ip =
      deltaHost (snapGet baseline ip) (snapGet current ip) := by
  unfold reportEntry
  rw [alookup_computeDelta hips hip]
  unfold deltaEntry
  split
  · rename_i hcond
    obtain ⟨h1, h2, h3⟩ := hcond
    cases hd : deltaHost (snapGet baseline ip) (snapGet current ip)
    rw [hd] at h1 h2 h3
    simp only at h1 h2 h3
    simp [Option.getD, h1, h2, h3]
  · rfl

theorem alookup_computeDelta_eq_none_iff {ips : List String}
    {baseline current : Snapshot} {ip : String}
    (hips : ips.Nodup) (hip : ip ∈ ips) :
    alookup ip (computeDelta ips baseline current) = none ↔
      (deltaHost (snapGet baseline ip) (snapGet current ip)).added = [] ∧
      (deltaHost (snapGet baseline ip) (snapGet current ip)).removed = [] ∧
      (deltaHost (snapGet baseline ip) (snapGet current ip)).changed = [] := by
  rw [alookup_computeDelta hips hip]
  unfold deltaEntry
  split
  · rename_i hcond
    simpa using hcond
  · rename_i hcond
    simpa using hcond

theorem mem_deltaHost_added_iff {bm cm : HostMap} {k : PortKey} {v : Obs}
    (hc : nodupKeys cm) :
    (k, v) ∈ (deltaHost bm cm).added ↔
      alookup k cm = some v ∧ alookup k bm = none := by
  unfold deltaHost
  simp only [List.mem_filter, Option.isNone_iff_eq_none,
    decide_eq_true_eq]
  rw [← alookup_eq_some_iff_mem hc]

theorem mem_deltaHost_removed_iff {bm cm : HostMap} {k : PortKey} {v : Obs}
    (hb : nodupKeys bm) :
    (k, v) ∈ (deltaHost bm cm).removed ↔
      alookup k bm = some v ∧ alookup k cm = none := by
  unfold deltaHost
  simp only [List.mem_filter, Option.isNone_iff_eq_none,
    decide_eq_true_eq]
  rw [← alookup_eq_some_iff_mem hb]

theorem mem_deltaHost_changed_iff {bm cm : HostMap} {k : PortKey} {w v : Obs}
    (hc : nodupKeys cm) :
    (k, w, v) ∈ (deltaHost bm cm).changed ↔
      alookup k bm = some w ∧ alookup k cm = some v ∧ v ≠ w := by
  unfold deltaHost
  simp only [List.mem_filterMap]
  constructor
  · rintro ⟨⟨k', v'⟩, hmem, heq⟩
    simp only at heq
    cases hbk : alookup k' bm with
    | none => rw [hbk] at heq; cases heq
    | some w' =>
      rw [hbk] at heq
      simp only at heq
      split at heq
      · rename_i hne
        simp only [Option.some.injEq, Prod.mk.injEq] at heq
        obtain ⟨rfl, rfl, rfl⟩ := heq
        exact ⟨hbk, alookup_eq_some_of_mem hc hmem, hne⟩
      · cases heq
  · rintro ⟨hbk, hck, hne⟩
    refine ⟨(k, v), mem_of_alookup_eq_some hck, ?_⟩
    simp only
    rw [hbk]
    simp [hne]

/-- C1: For every pair of snapshots and every host in the iteration order
of the host union: a key present in `current[h]` and absent from
`baseline[h]` is recorded as added; a key present in both whose
`(state, service)` pair differs under exact (case-sensitive, structural)
equality is recorded as changed, carrying the old and the new
observation; a key present in `baseline[h]` and absent from `current[h]`
is recorded as removed; and a host appears in the report if and only if
it has at least one added/removed/changed entry. -/
theorem delta_classification
    (ips : List String) (baseline current : Snapshot) (ip : String)
    (hips : ips.Nodup) (hip : ip ∈ ips)
    (hb : nodupKeys (snapGet baseline ip))
    (hc : nodupKeys (snapGet current ip)) :
    (∀ k v, (k, v) ∈ (reportEntry (computeDelta ips baseline current) ip).added ↔
        alookup k (snapGet current ip) = some v ∧
        alookup k (snapGet baseline ip) = none) ∧
    (∀ k w v, (k, w, v) ∈ (reportEntry (computeDelta ips baseline current) ip).changed ↔
        alookup k (snapGet baseline ip) = some w ∧
        alookup k (snapGet current ip) = some v ∧ v ≠ w) ∧
    (∀ k v, (k, v) ∈ (reportEntry (computeDelta ips baseline current) ip).removed ↔
        alookup k (snapGet baseline ip) = some v ∧
        alookup k (snapGet current ip) = none) ∧
    (alookup ip (computeDelta ips baseline current) = none ↔
        (reportEntry (computeDelta ips baseline current) ip).added = [] ∧
        (reportEntry (computeDelta ips baseline current) ip).removed = [] ∧
        (reportEntry (computeDelta ips baseline current) ip).changed = []) := by
  rw [reportEntry_computeDelta hips hip]
  refine ⟨fun k v => mem_deltaHost_added_iff hc,
          fun k w v => mem_deltaHost_changed_iff hc,
          fun k v => mem_deltaHost_removed_iff hb,
          alookup_computeDelta_eq_none_iff hips hip⟩

/-- Witness for C1 at a concrete pair of snapshots. -/
theorem delta_classification_witness :
    (∀ k v, (k, v) ∈ (reportEntry (computeDelta ["h1"] demoBase demoCur) "h1").added ↔
        alookup k (snapGet demoCur "h1") = some v ∧
        alookup k (snapGet demoBase "h1") = none) ∧
    (∀ k w v, (k, w, v) ∈ (reportEntry (computeDelta ["h1"] demoBase demoCur) "h1").changed ↔
        alookup k (snapGet demoBase "h1") = some w ∧
        alookup k (snapGet demoCur "h1") = some v ∧ v ≠ w) ∧
    (∀ k v, (k, v) ∈ (reportEntry (computeDelta ["h1"] demoBase demoCur) "h1").removed ↔
        alookup k (snapGet demoBase "h1") = some v ∧
        alookup k (snapGet demoCur "h1") = none) ∧
    (alookup "h1" (computeDelta ["h1"] demoBase demoCur) = none ↔
        (reportEntry (computeDelta ["h1"] demoBase demoCur) "h1").added = [] ∧
        (reportEntry (computeDelta ["h1"] demoBase demoCur) "h1").removed = [] ∧
        (reportEntry (computeDelta ["h1"] demoBase demoCur) "h1").changed = []) :=
  delta_classification ["h1"] demoBase demoCur "h1"
    (by decide) (by decide) (by decide) (by decide)

theorem deltaHost_self {bm : HostMap} (h : nodupKeys bm) :
    deltaHost bm bm = ⟨[], [], []⟩ := by
  unfold deltaHost
  simp only [HostEntry.mk.injEq]
  refine ⟨?_, ?_, ?_⟩
  · rw [List.filter_eq_nil_iff]
    rintro ⟨k, v⟩ hm
    simp [Option.isNone_iff_eq_none,
      Option.isSome_iff_ne_none.mp (alookup_isSome_of_mem hm)]
  · rw [List.filter_eq_nil_iff]
    rintro ⟨k, v⟩ hm
    simp [Option.isNone_iff_eq_none,
      Option.isSome_iff_ne_none.mp (alookup_isSome_of_mem hm)]
  · rw [List.filterMap_eq_nil_iff]
    rintro ⟨k, v⟩ hm
    simp only
    rw [alookup_eq_some_of_mem h hm]
    simp

/-- C4: `diff(X, X)` is the empty report for every snapshot `X` (whose
host maps, being Python dicts, have pairwise distinct keys), under any
iteration order of the host union. -/
theorem diff_self (ips : List String) (X : Snapshot)
    (h : ∀ p ∈ X, nodupKeys p.2) :
    computeDelta ips X X = [] := by
  unfold computeDelta
  rw [List.filterMap_eq_nil_iff]
  intro ip _
  have hnd : nodupKeys (snapGet X ip) := by
    unfold snapGet
    cases ha : alookup ip X with
    | none => simp [nodupKeys]
    | some m => exact h (ip, m) (mem_of_alookup_eq_some ha)
  unfold deltaEntry
  rw [deltaHost_self hnd]
  simp

/-- Witness for C4 at a concrete snapshot. -/
theorem diff_self_witness :
    computeDelta ["h1"] demoBase demoBase = [] :=
  diff_self ["h1"] demoBase (by decide)

/-! ## Report ordering (`_format_report` in `main.py`) -/

theorem pairwise_keyLT_of_sorted {l : Report} (hs : List.Sorted keyLE l)
    (hnd : (l.map Prod.fst).Nodup) : List.Pairwise keyLT l := by
  have hne : l.Pairwise (fun a b => a.1 ≠ b.1) := List.pairwise_map.mp hnd
  exact (hs.and hne).imp (fun h => lt_of_le_of_ne h.1 h.2)

/-- C5 counterexample: under the host-union iteration order
`["b", "a"]` (a permutation of the host union, hence a legitimate Python
set iteration order), `_compute_delta` returns its report dict with
hosts in the order `["b", "a"]`, which is not ascending — so the
DeltaReport itself is not sorted by host identifier and does depend on
the iteration order. -/
theorem delta_report_order_cex :
    (["b", "a"] : List String).Perm (hostUnion twoHostBase twoHostCur) ∧
    (computeDelta ["b", "a"] twoHostBase twoHostCur).map Prod.fst = ["b", "a"] ∧
    ¬ ((computeDelta ["b", "a"] twoHostBase twoHostCur).map Prod.fst).Pairwise (· < ·) := by
  refine ⟨by decide, by decide, ?_⟩
  intro h
  rw [(by decide :
    (computeDelta ["b", "a"] twoHostBase twoHostCur).map Prod.fst = ["b", "a"])] at h
  have hlt := (List.pairwise_cons.mp h).1 "a" (List.mem_cons_self _ _)
  rw [String.lt_iff_toList_lt] at hlt
  exact absurd hlt (by decide)

/-- C5 (amended): the DeltaReport dict produced by `_compute_delta`
lists hosts in the (unspecified) iteration order of the host-union set;
the determinism and the ascending order live in the rendering step
`_format_report`, which sorts the report items by host identifier.  For
any two iteration orders of the same host set, the rendered
(sorted) report is identical, and its hosts are strictly ascending. -/
theorem sorted_report_deterministic (baseline current : Snapshot)
    (ips1 ips2 : List String) (h1 : ips1.Nodup) (hperm : ips1.Perm ips2) :
    sortReport (computeDelta ips1 baseline current) =
      sortReport (computeDelta ips2 baseline current) ∧
    ((sortReport (computeDelta ips1 baseline current)).map Prod.fst).Pairwise
      (· < ·) := by
  have hd : (computeDelta ips1 baseline current).Perm
      (computeDelta ips2 baseline current) := hperm.filterMap _
  have hk1 : ((computeDelta ips1 baseline current).map Prod.fst).Nodup :=
    h1.sublist (computeDelta_keys_sublist ips1 baseline current)
  have hk2 : ((computeDelta ips2 baseline current).map Prod.fst).Nodup :=
    (hd.map Prod.fst).nodup hk1
  have hp1 : (sortReport (computeDelta ips1 baseline current)).Perm
      (computeDelta ips1 baseline current) := List.perm_insertionSort keyLE _
  have hp2 : (sortReport (computeDelta ips2 baseline current)).Perm
      (computeDelta ips2 baseline current) := List.perm_insertionSort keyLE _
  have hk1' : ((sortReport (computeDelta ips1 baseline current)).map Prod.fst).Nodup :=
    ((hp1.map Prod.fst).symm).nodup hk1
  have hk2' : ((sortReport (computeDelta ips2 baseline current)).map Prod.fst).Nodup :=
    ((hp2.map Prod.fst).symm).nodup hk2
  have ha1 : List.Pairwise keyLT (sortReport (computeDelta ips1 baseline current)) :=
    pairwise_keyLT_of_sorted (List.sorted_insertionSort keyLE _) hk1'
  have ha2 : List.Pairwise keyLT (sortReport (computeDelta ips2 baseline current)) :=
    pairwise_keyLT_of_sorted (List.sorted_insertionSort keyLE _) hk2'
  refine ⟨List.eq_of_perm_of_sorted (hp1.trans (hd.trans hp2.symm)) ha1 ha2, ?_⟩
  exact List.pairwise_map.mpr (ha1.imp (fun h => h))

/-- Witness for the amended C5 at the two-host example with the two
possible iteration orders. -/
theorem sorted_report_deterministic_witness :
    sortReport (computeDelta ["b", "a"] twoHostBase twoHostCur) =
      sortReport (computeDelta ["a", "b"] twoHostBase twoHostCur) ∧
    ((sortReport (computeDelta ["b", "a"] twoHostBase twoHostCur)).map Prod.fst).Pairwise
      (· < ·) :=
  sorted_report_deterministic twoHostBase twoHostCur ["b", "a"] ["a", "b"]
    (by decide) (by decide)

/-! ## Combined snapshot assembly (last writer wins) -/

theorem alookup_mapInsert (m : HostMap) (k k' : PortKey) (v : Obs) :
    alookup k' (mapInsert k v m) =
      if k = k' then some v else alookup k' m := by
  induction m with
  | nil => simp [mapInsert, alookup]
  | cons e rest ih =>
    obtain ⟨k0, v0⟩ := e
    by_cases h0 : k0 = k
    · subst h0
      by_cases h1 : k0 = k'
      · subst h1; simp [mapInsert, alookup]
      · simp [mapInsert, alookup, h1]
    · by_cases h1 : k0 = k'
      · subst h1
        have : ¬ k = k0 := fun h => h0 h.symm
        simp [mapInsert, alookup, h0, this]
      · simp [mapInsert, alookup, h0, h1, ih]

theorem snapAlookup_snapInsert (s : Snapshot) (ip ip' : String)
    (k k' : PortKey) (v : Obs) :
    snapAlookup (snapInsert ip k v s) ip' k' =
      if ip = ip' ∧ k = k' then some v else snapAlookup s ip' k' := by
  induction s with
  | nil =>
    by_cases hip : ip = ip'
    · subst hip
      simp [snapInsert, snapAlookup, snapGet, alookup, alookup_mapInsert]
    · simp [snapInsert, snapAlookup, snapGet, alookup, hip]
  | cons e rest ih =>
    obtain ⟨ip0, m0⟩ := e
    by_cases h0 : ip0 = ip
    · subst h0
      by_cases h1 : ip0 = ip'
      · subst h1
        simp [snapInsert, snapAlookup, snapGet, alookup, alookup_mapInsert]
      · simp [snapInsert, snapAlookup, snapGet, alookup, h1]
    · by_cases h1 : ip0 = ip'
      · subst h1
        have hne : ¬ ip = ip0 := fun h => h0 h.symm
        simp [snapInsert, snapAlookup, snapGet, alookup, h0, hne]
      · simpa [snapInsert, snapAlookup, snapGet, alookup, h0, h1] using ih

theorem foldl_lwwStep (ip : String) (k : PortKey) (ys : List ObsRow) :
    ∀ a : Option Obs,
      ys.foldl (lwwStep ip k) a = (lastWriteWins ys ip k).or a := by
  induction ys with
  | nil => intro a; simp [lastWriteWins]
  | cons r rest ih =>
    intro a
    show rest.foldl (lwwStep ip k) (lwwStep ip k a r) = _
    rw [ih]
    have h2 : lastWriteWins (r :: rest) ip k =
        (lastWriteWins rest ip k).or (lwwStep ip k none r) := by
      show rest.foldl (lwwStep ip k) (lwwStep ip k none r) = _
      rw [ih]
    rw [h2]
    cases hrest : lastWriteWins rest ip k with
    | some v => simp
    | none =>
      simp only [Option.none_or]
      unfold lwwStep
      split
      · simp
      · simp

theorem snapAlookup_buildSnap (rows : List ObsRow) (ip : String) (k : PortKey) :
    snapAlookup (buildSnap rows) ip k = lastWriteWins rows ip k := by
  have main : ∀ (l : List ObsRow) (cur : Snapshot),
      snapAlookup (l.foldl snapStep cur) ip k =
        l.foldl (lwwStep ip k) (snapAlookup cur ip k) := by
    intro l
    induction l with
    | nil => intro cur; rfl
    | cons r rest ih =>
      intro cur
      show snapAlookup (rest.foldl snapStep (snapStep cur r)) ip k = _
      rw [ih, List.foldl_cons]
      congr 1
      show snapAlookup
          (snapInsert r.ip (r.port, r.proto) ⟨r.state, r.service⟩ cur) ip k =
        lwwStep ip k (snapAlookup cur ip k) r
      rw [snapAlookup_snapInsert]
      rfl
  have h0 := main rows []
  simpa [lastWriteWins] using h0

/-- C8: in the combined latest-TCP+UDP current map, observations are
keyed by `(host, (port, protocol))`, and the value at each key is the
last assignment made to it: a key present only in the UDP rows (e.g.
`(p, "udp")`) or only in the TCP rows (e.g. `(p, "tcp")`) keeps its own
entry — same host and port number with different protocol strings are
two distinct entries — and when the exact same key occurs in both, the
UDP rows (processed after the TCP rows) win, with no error raised. -/
theorem combined_current_lookup (tcpRows udpRows : List ObsRow)
    (ip : String) (k : PortKey) :
    snapAlookup (buildSnap (tcpRows ++ udpRows)) ip k =
      (lastWriteWins udpRows ip k).or (lastWriteWins tcpRows ip k) := by
  rw [snapAlookup_buildSnap]
  show (tcpRows ++ udpRows).foldl (lwwStep ip k) none = _
  rw [List.foldl_append, foldl_lwwStep]
  rfl

/-! ## Parser skip rules (C6) -/

/-- C6 counterexample: a port element with no `protocol` attribute (and
with a `<state>` child lacking its `state` attribute) produces an
observation whose `proto` and `state` are `None` (`none`), not the empty
string — refuting "every other malformed or missing field (protocol,
state, service) defaults to the empty string". -/
theorem parser_default_cex :
    parseHost badAttrXmlHost = [⟨"h1", 80, none, none, ""⟩] ∧
    ((none : Option String) ≠ some "") := ⟨by decide, by decide⟩

/-- C6 (amended): the skip rules hold — a host with no resolvable
address yields no observations and no error, a host with no port
container yields none, a port entry whose port number does not parse as
an integer is skipped (a host all of whose ports fail yields none) — and
each produced observation takes its fields from its port element with
`service` defaulting to `''` when the service element or its `name`
attribute is missing, `state` defaulting to `''` only when the state
element is absent (`None` when the element is present without the
attribute), and `proto` carried through unchanged (`None`, not `''`,
when the protocol attribute is missing). -/
theorem parser_skip_rules (host : XmlHost) :
    (resolveAddr host.addresses = none → parseHost host = []) ∧
    (host.ports = none → parseHost host = []) ∧
    (∀ addr ps, resolveAddr host.addresses = some addr →
      host.ports = some ps →
      (∀ p ∈ ps, pyInt p.portid = none) → parseHost host = []) ∧
    (∀ r ∈ parseHost host, ∃ addr ps p,
      resolveAddr host.addresses = some addr ∧ host.ports = some ps ∧
      p ∈ ps ∧ r.ip = addr ∧ pyInt p.portid = some r.port ∧
      r.proto = p.protocol ∧ r.state = stateOf p ∧
      r.service = serviceOf p) := by
  refine ⟨?_, ?_, ?_, ?_⟩
  · intro h
    simp [parseHost, h]
  · intro h
    cases hr : resolveAddr host.addresses <;> simp [parseHost, h, hr]
  · intro addr ps ha hp hall
    simp only [parseHost, ha, hp]
    rw [List.filterMap_eq_nil_iff]
    intro p hpm
    simp [parseXmlPort, hall p hpm]
  · intro r hr
    cases ha : resolveAddr host.addresses with
    | none => rw [parseHost, ha] at hr; cases hr
    | some addr =>
      cases hp : host.ports with
      | none => rw [parseHost, ha, hp] at hr; cases hr
      | some ps =>
        rw [parseHost, ha, hp] at hr
        obtain ⟨p, hpm, heq⟩ := List.mem_filterMap.mp hr
        refine ⟨addr, ps, p, rfl, rfl, hpm, ?_⟩
        unfold parseXmlPort at heq
        cases hpi : pyInt p.portid with
        | none => rw [hpi] at heq; cases heq
        | some portid =>
          rw [hpi] at heq
          simp only [Option.some.injEq] at heq
          subst heq
          exact ⟨rfl, rfl, rfl, rfl, rfl⟩

/-- Witness for the amended C6: each skip rule fired on a concrete
host. -/
theorem parser_skip_rules_witness :
    parseHost ⟨[none, some ""],
      some [⟨some "80", some "tcp", none, none⟩]⟩ = [] ∧
    parseHost ⟨[some "h1"], none⟩ = [] ∧
    parseHost ⟨[some "h1"],
      some [⟨some "8x", some "tcp", none, none⟩,
            ⟨none, some "udp", none, none⟩]⟩ = [] :=
  ⟨(parser_skip_rules _).1 (by decide),
   (parser_skip_rules _).2.1 rfl,
   (parser_skip_rules _).2.2.1 "h1" _ (by decide) rfl (by decide)⟩

/-! ## Corrupt artifacts in the ingest batch (C7) -/

/-- C7 counterexample: a batch with a corrupt artifact followed by a good
one: the batch continues and the good artifact's rows are ingested, but
the corrupt artifact's name is present in `scan_files` afterwards — it
IS recorded as ingested (with zero observations), refuting "not recorded
as ingested". -/
theorem corrupt_recorded_cex :
    (ingest_all_scans "t0" [("corrupt-tcp-1.xml", none),
        ("good-tcp-2.xml", some [demoXmlHost])] emptyDB).scanFiles.map
      (fun r => r.scan_file) = ["corrupt-tcp-1.xml", "good-tcp-2.xml"] ∧
    hasScanFile (ingest_all_scans "t0" [("corrupt-tcp-1.xml", none),
        ("good-tcp-2.xml", some [demoXmlHost])] emptyDB)
      "corrupt-tcp-1.xml" = true ∧
    (ingest_all_scans "t0" [("corrupt-tcp-1.xml", none),
        ("good-tcp-2.xml", some [demoXmlHost])] emptyDB).ports =
      [⟨"good-tcp-2.xml", "h1", 80, some "tcp", some "open", "http"⟩] := by
  decide

/-- C7 (amended): a corrupt artifact (whole-document parse failure) is
recoverable: no exception escapes, the batch continues with the
remaining artifacts, and the corrupt artifact contributes zero port
observations — but a `scan_files` row for it IS created, so it counts as
ingested and will not be reprocessed by a later run. -/
theorem corrupt_artifact_behavior (now : String) (db : DB) (fname : String)
    (files : List (String × Option (List XmlHost)))
    (hnew : hasScanFile db fname = false) :
    (ingestFile now db (fname, none)).ports = db.ports ∧
    (ingestFile now db (fname, none)).scanFiles =
      db.scanFiles ++ [⟨db.nextScanId, fname, scanTypeOf fname, now⟩] ∧
    hasScanFile (ingestFile now db (fname, none)) fname = true ∧
    ingest_all_scans now ((fname, none) :: files) db =
      ingest_all_scans now files (ingestFile now db (fname, none)) := by
  refine ⟨?_, ?_, ?_, rfl⟩
  · simp [ingestFile, hnew, parse_nmap_xml]
  · simp [ingestFile, hnew]
  · unfold ingestFile
    rw [if_neg (by simp [hnew])]
    simp [hasScanFile, List.any_append]

/-- Witness for the amended C7 at a concrete batch. -/
theorem corrupt_artifact_behavior_witness :
    (ingestFile "t0" emptyDB ("corrupt-tcp-1.xml", none)).ports =
      emptyDB.ports ∧
    (ingestFile "t0" emptyDB ("corrupt-tcp-1.xml", none)).scanFiles =
      emptyDB.scanFiles ++ [⟨emptyDB.nextScanId, "corrupt-tcp-1.xml",
        scanTypeOf "corrupt-tcp-1.xml", "t0"⟩] ∧
    hasScanFile (ingestFile "t0" emptyDB ("corrupt-tcp-1.xml", none))
      "corrupt-tcp-1.xml" = true ∧
    ingest_all_scans "t0" [("corrupt-tcp-1.xml", none),
        ("good-tcp-2.xml", some [demoXmlHost])] emptyDB =
      ingest_all_scans "t0" [("good-tcp-2.xml", some [demoXmlHost])]
        (ingestFile "t0" emptyDB ("corrupt-tcp-1.xml", none)) :=
  corrupt_artifact_behavior "t0" emptyDB "corrupt-tcp-1.xml"
    [("good-tcp-2.xml", some [demoXmlHost])] (by decide)

/-! ## Ingestion idempotence (C2) -/

theorem hasScanFile_ingestFile_self (now : String) (db : DB)
    (f : String × Option (List XmlHost)) :
    hasScanFile (ingestFile now db f) f.1 = true := by
  unfold ingestFile
  split
  · rename_i h; exact h
  · simp [hasScanFile, List.any_append]

theorem hasScanFile_ingestFile_mono {db : DB} {g : String} (now : String)
    (f : String × Option (List XmlHost)) (h : hasScanFile db g = true) :
    hasScanFile (ingestFile now db f) g = true := by
  unfold ingestFile
  split
  · exact h
  · unfold hasScanFile at h ⊢
    simp [List.any_append, h]

theorem hasScanFile_ingest_all_mono (now : String)
    (files : List (String × Option (List XmlHost))) {db : DB} {g : String}
    (h : hasScanFile db g = true) :
    hasScanFile (ingest_all_scans now files db) g = true := by
  induction files generalizing db with
  | nil => exact h
  | cons f rest ih => exact ih (hasScanFile_ingestFile_mono now f h)

theorem all_present_after_ingest (now : String)
    (files : List (String × Option (List XmlHost))) (db : DB) :
    ∀ f ∈ files, hasScanFile (ingest_all_scans now files db) f.1 = true := by
  induction files generalizing db with
  | nil => intro f hf; cases hf
  | cons g rest ih =>
    intro f hf
    rcases List.mem_cons.mp hf with h | h
    · subst h
      exact hasScanFile_ingest_all_mono now rest
        (hasScanFile_ingestFile_self now db f)
    · exact ih (ingestFile now db g) f h

theorem ingest_all_noop (now : String)
    (files : List (String × Option (List XmlHost))) (db : DB)
    (h : ∀ f ∈ files, hasScanFile db f.1 = true) :
    ingest_all_scans now files db = db := by
  induction files with
  | nil => rfl
  | cons g rest ih =>
    have hg : ingestFile now db g = db := by
      unfold ingestFile
      rw [if_pos (h g (List.mem_cons_self g rest))]
    show ingest_all_scans now rest (ingestFile now db g) = db
    rw [hg]
    exact ih (fun f hf => h f (List.mem_cons_of_mem _ hf))

/-- C2: ingestion is idempotent at artifact granularity.  For an
artifact name already present in the store, ingesting it again is a
no-op (the store is returned unchanged — no scan-file row and no port
rows are inserted, and no error is raised: the loop just continues);
consequently re-running the whole ingest over the same directory of
artifacts changes nothing. -/
theorem ingest_idempotent (now now2 : String)
    (files : List (String × Option (List XmlHost))) (db : DB)
    (f : String × Option (List XmlHost))
    (hf : hasScanFile db f.1 = true) :
    ingestFile now db f = db ∧
    ingest_all_scans now2 files (ingest_all_scans now files db) =
      ingest_all_scans now files db := by
  constructor
  · unfold ingestFile
    rw [if_pos hf]
  · exact ingest_all_noop now2 files _ (all_present_after_ingest now files db)

/-- Witness for C2: re-ingesting an already present artifact at a
concrete store. -/
theorem ingest_idempotent_witness :
    ingestFile "t1" dbWithScan ("a-tcp-1.xml", some [demoXmlHost]) =
      dbWithScan ∧
    ingest_all_scans "t2" [("a-tcp-1.xml", some [demoXmlHost])]
        (ingest_all_scans "t1" [("a-tcp-1.xml", some [demoXmlHost])]
          dbWithScan) =
      ingest_all_scans "t1" [("a-tcp-1.xml", some [demoXmlHost])]
        dbWithScan :=
  ingest_idempotent "t1" "t2" [("a-tcp-1.xml", some [demoXmlHost])]
    dbWithScan ("a-tcp-1.xml", some [demoXmlHost]) (by decide)

/-! ## Baseline replacement (C3, C10) -/

theorem baselineFor_replaced (tenant set_at : String) (rows : List ObsRow)
    (table : List BaselineRow) :
    baselineFor tenant
        ((table.filter (fun r => ¬ r.tenant = tenant)) ++
          rows.map (toBaselineRow tenant set_at)) =
      rows.map (toBaselineRow tenant set_at) := by
  unfold baselineFor
  rw [List.filter_append]
  have h1 : (table.filter (fun r => ¬ r.tenant = tenant)).filter
      (fun r => r.tenant = tenant) = [] := by
    rw [List.filter_eq_nil_iff]
    intro a ha
    have h2 := (List.mem_filter.mp ha).2
    simp only [decide_eq_true_eq] at h2 ⊢
    exact h2
  have h3 : (rows.map (toBaselineRow tenant set_at)).filter
      (fun r => r.tenant = tenant) = rows.map (toBaselineRow tenant set_at) := by
    rw [List.filter_eq_self]
    intro a ha
    obtain ⟨r, _, rfl⟩ := List.mem_map.mp ha
    simp [toBaselineRow]
  rw [h1, h3, List.nil_append]

theorem baselineFor_other {t' tenant : String} (set_at : String)
    (rows : List ObsRow) (table : List BaselineRow) (h : t' ≠ tenant) :
    baselineFor t'
        ((table.filter (fun r => ¬ r.tenant = tenant)) ++
          rows.map (toBaselineRow tenant set_at)) =
      baselineFor t' table := by
  unfold baselineFor
  rw [List.filter_append]
  have h2 : (rows.map (toBaselineRow tenant set_at)).filter
      (fun r => r.tenant = t') = [] := by
    rw [List.filter_eq_nil_iff]
    intro a ha
    obtain ⟨r, _, rfl⟩ := List.mem_map.mp ha
    simp only [toBaselineRow, decide_eq_true_eq]
    exact fun hh => h hh.symm
  have h1 : (table.filter (fun r => ¬ r.tenant = tenant)).filter
      (fun r => r.tenant = t') = table.filter (fun r => r.tenant = t') := by
    rw [List.filter_filter]
    apply List.filter_congr
    intro a _
    by_cases hc : a.tenant = t'
    · simp [hc, h]
    · simp [hc]
  rw [h1, h2, List.append_nil]

/-- C3: setting a tenant's baseline is a full replace, never a merge:
after the operation the tenant's baseline rows are exactly the provided
observations, each stamped with the fresh `set_at` (for
`set_baseline_combined` the given tuples — the empty list is valid and
leaves the tenant's baseline empty; for `set_baseline` with an explicit
scan file, the port rows of that scan), none of the previously held
rows of the tenant survive, and rows of every other tenant are
untouched. -/
theorem set_baseline_replaces (tenant set_at : String)
    (port_rows : List ObsRow) (table : List BaselineRow)
    (db : DB) (sf : String) (hsf : sf ≠ "") :
    baselineFor tenant (set_baseline_combined tenant set_at port_rows table) =
      port_rows.map (toBaselineRow tenant set_at) ∧
    (∀ t', t' ≠ tenant →
      baselineFor t' (set_baseline_combined tenant set_at port_rows table) =
        baselineFor t' table) ∧
    baselineFor tenant (set_baseline tenant (some sf) set_at db).baselinePorts =
      ((db.ports.filter (fun r => r.scan_file = sf)).map
        (fun r => (⟨r.ip, r.port, r.proto, r.state, r.service⟩ : ObsRow))).map
          (toBaselineRow tenant set_at) ∧
    (∀ t', t' ≠ tenant →
      baselineFor t' (set_baseline tenant (some sf) set_at db).baselinePorts =
        baselineFor t' db.baselinePorts) := by
  have hdef : (set_baseline tenant (some sf) set_at db).baselinePorts =
      (db.baselinePorts.filter (fun r => ¬ r.tenant = tenant)) ++
        ((db.ports.filter (fun r => r.scan_file = sf)).map
          (fun r => (⟨r.ip, r.port, r.proto, r.state, r.service⟩ : ObsRow))).map
            (toBaselineRow tenant set_at) := by
    unfold set_baseline
    rw [if_pos (by simp [truthy, hsf])]
    simp [List.map_map]
  refine ⟨baselineFor_replaced tenant set_at port_rows table,
          fun t' ht' => baselineFor_other set_at port_rows table ht', ?_, ?_⟩
  · rw [hdef]
    exact baselineFor_replaced tenant set_at _ db.baselinePorts
  · intro t' ht'
    rw [hdef]
    exact baselineFor_other set_at _ db.baselinePorts ht'

/-- Witness for C3: replacing `acme`'s two-row baseline with the empty
observation set leaves it empty (and `globex` untouched), and
`set_baseline` from an explicit scan file installs exactly that scan's
rows. -/
theorem set_baseline_replaces_witness :
    baselineFor "acme" (set_baseline_combined "acme" "t1" [] demoTable) =
      ([] : List ObsRow).map (toBaselineRow "acme" "t1") ∧
    (∀ t', t' ≠ "acme" →
      baselineFor t' (set_baseline_combined "acme" "t1" [] demoTable) =
        baselineFor t' demoTable) ∧
    baselineFor "acme" (set_baseline "acme" (some "a-tcp-1.xml") "t1" dbPorts).baselinePorts =
      ((dbPorts.ports.filter (fun r => r.scan_file = "a-tcp-1.xml")).map
        (fun r => (⟨r.ip, r.port, r.proto, r.state, r.service⟩ : ObsRow))).map
          (toBaselineRow "acme" "t1") ∧
    (∀ t', t' ≠ "acme" →
      baselineFor t' (set_baseline "acme" (some "a-tcp-1.xml") "t1" dbPorts).baselinePorts =
        baselineFor t' dbPorts.baselinePorts) :=
  set_baseline_replaces "acme" "t1" [] demoTable dbPorts "a-tcp-1.xml"
    (by decide)

/-- C10: when `set_baseline` is invoked without an explicit scan file
and the `scan_files` table is empty, it returns early: the whole store —
in particular the tenant's existing baseline rows — is left unchanged. -/
theorem set_baseline_no_scans (tenant set_at : String) (db : DB)
    (h : db.scanFiles = []) :
    set_baseline tenant none set_at db = db := by
  unfold set_baseline
  rw [h]
  rfl

/-- Witness for C10: a store with a non-empty `acme` baseline and no
scans is returned untouched. -/
theorem set_baseline_no_scans_witness :
    set_baseline "acme" none "t1" dbNoScans = dbNoScans :=
  set_baseline_no_scans "acme" "t1" dbNoScans rfl

/-! ## Comparing a baseline against zero artifacts (C9) -/

theorem deltaHost_empty_cur (bm : HostMap) : deltaHost bm [] = ⟨[], bm, []⟩ := by
  unfold deltaHost
  simp [alookup]

/-- C9: when no TCP-typed and no UDP-typed scan artifact exists, the
combined comparison still returns a value (no error): both latest-scan
identities are `none`, and every entry of the tenant's baseline snapshot
appears in the report as removed, with nothing added and nothing
changed. -/
theorem compare_zero_artifacts (tenant : String) (db : DB)
    (hT : db.scanFiles.filter (fun r => r.scan_type = "tcp") = [])
    (hU : db.scanFiles.filter (fun r => r.scan_type = "udp") = []) :
    (compare_baseline_to_latest_combined tenant db).1 = none ∧
    (compare_baseline_to_latest_combined tenant db).2.1 = none ∧
    ∀ ip k v,
      snapAlookup (buildSnap (baselineObsRows db tenant)) ip k = some v →
      ∃ e, alookup ip (compare_baseline_to_latest_combined tenant db).2.2 =
          some e ∧
        (k, v) ∈ e.removed ∧ e.added = [] ∧ e.changed = [] := by
  have hTn : latestOfType db "tcp" = none := by
    unfold latestOfType
    rw [hT]
    rfl
  have hUn : latestOfType db "udp" = none := by
    unfold latestOfType
    rw [hU]
    rfl
  have hrep : (compare_baseline_to_latest_combined tenant db).2.2 =
      computeDelta (hostUnion (buildSnap (baselineObsRows db tenant)) [])
        (buildSnap (baselineObsRows db tenant)) [] := by
    unfold compare_baseline_to_latest_combined
    rw [hTn, hUn]
    rfl
  refine ⟨?_, ?_, ?_⟩
  · unfold compare_baseline_to_latest_combined
    exact hTn
  · unfold compare_baseline_to_latest_combined
    exact hUn
  · intro ip k v hbv
    unfold snapAlookup at hbv
    have hmem : (k, v) ∈ snapGet (buildSnap (baselineObsRows db tenant)) ip :=
      mem_of_alookup_eq_some hbv
    have hipkeys : ip ∈ (buildSnap (baselineObsRows db tenant)).map Prod.fst := by
      unfold snapGet at hmem
      cases halk : alookup ip (buildSnap (baselineObsRows db tenant)) with
      | none => rw [halk] at hmem; cases hmem
      | some m =>
        exact List.mem_map.mpr ⟨(ip, m), mem_of_alookup_eq_some halk, rfl⟩
    have hipmem : ip ∈ hostUnion (buildSnap (baselineObsRows db tenant)) [] := by
      unfold hostUnion
      rw [List.mem_dedup]
      simpa using hipkeys
    have hips : (hostUnion (buildSnap (baselineObsRows db tenant))
        ([] : Snapshot)).Nodup := List.nodup_dedup _
    have hlook := @alookup_computeDelta
      (hostUnion (buildSnap (baselineObsRows db tenant)) [])
      (buildSnap (baselineObsRows db tenant)) [] ip hips hipmem
    have hdh : deltaHost (snapGet (buildSnap (baselineObsRows db tenant)) ip)
        (snapGet ([] : Snapshot) ip) =
        ⟨[], snapGet (buildSnap (baselineObsRows db tenant)) ip, []⟩ :=
      deltaHost_empty_cur _
    have hne : snapGet (buildSnap (baselineObsRows db tenant)) ip ≠ [] :=
      List.ne_nil_of_mem hmem
    have hde : deltaEntry (buildSnap (baselineObsRows db tenant)) [] ip =
        some (ip, ⟨[], snapGet (buildSnap (baselineObsRows db tenant)) ip, []⟩) := by
      unfold deltaEntry
      rw [hdh]
      rw [if_neg]
      intro hcond
      exact hne hcond.2.1
    rw [hde] at hlook
    refine ⟨⟨[], snapGet (buildSnap (baselineObsRows db tenant)) ip, []⟩,
      ?_, hmem, rfl, rfl⟩
    rw [hrep, hlook]
    rfl

/-- Witness for C9: the store `dbNoScans` has a one-row `acme` baseline
and no scans at all. -/
theorem compare_zero_artifacts_witness :
    (compare_baseline_to_latest_combined "acme" dbNoScans).1 = none ∧
    (compare_baseline_to_latest_combined "acme" dbNoScans).2.1 = none ∧
    ∀ ip k v,
      snapAlookup (buildSnap (baselineObsRows dbNoScans "acme")) ip k = some v →
      ∃ e, alookup ip (compare_baseline_to_latest_combined "acme" dbNoScans).2.2 =
          some e ∧
        (k, v) ∈ e.removed ∧ e.added = [] ∧ e.changed = [] :=
  compare_zero_artifacts "acme" dbNoScans rfl rfl

end SurfaceMinder
